import Mathlib

/- Verification of the qa-agency UDP QA agent.

Shallow embedding of the refinement orchestration engine of the repository:
Python strings are modelled as `List Char`, machine behaviour that the code
merely observes (process liveness, subprocess outcomes, LLM responses) is
supplied through explicit oracle values, and each definition below is a
direct translation of the named lines of `src/udp_qa_agent.py` or
`src/agent_utils.py`. -/

set_option maxRecDepth 4000

/-- Python default whitespace characters recognised by `str.strip`
(restricted to the ASCII range, which covers every string the agent
manipulates). -/
def pySpace (c : Char) : Bool :=
  c = ' ' || c = '\t' || c = '\n' || c = '\r' || c = '\x0b' || c = '\x0c'

/-- Python `str.strip()` on character lists: drop whitespace from both ends. -/
def pyStrip (s : List Char) : List Char :=
  ((s.dropWhile pySpace).reverse.dropWhile pySpace).reverse

/-- Python `s.startswith(p)` on character lists. -/
def pyStartswith : List Char → List Char → Bool
  | _, [] => true
  | [], _ :: _ => false
  | c :: cs, p :: ps => c == p && pyStartswith cs ps

/-- Python `s.endswith(p)` on character lists. -/
def pyEndswith (s suf : List Char) : Bool :=
  pyStartswith s.reverse suf.reverse

/-- Python substring membership `needle in hay` on character lists. -/
def pyIn (needle : List Char) : List Char → Bool
  | [] => needle.isEmpty
  | c :: t => pyStartswith (c :: t) needle || pyIn needle t

/-- Mathematical statement that `n` occurs contiguously inside `h`. -/
def SubstringOf (n h : List Char) : Prop := ∃ p q, p ++ n ++ q = h

theorem pyStartswith_iff : ∀ (s p : List Char), pyStartswith s p = true ↔ ∃ r, p ++ r = s
  | s, [] => by simp [pyStartswith]
  | [], _ :: _ => by simp [pyStartswith]
  | c :: cs, p :: ps => by
    rw [show pyStartswith (c :: cs) (p :: ps) = (c == p && pyStartswith cs ps) from rfl]
    simp only [Bool.and_eq_true, beq_iff_eq, pyStartswith_iff cs ps]
    constructor
    · rintro ⟨h1, r, h2⟩
      exact ⟨r, by rw [List.cons_append, h1, h2]⟩
    · rintro ⟨r, h⟩
      rw [List.cons_append] at h
      injection h with h1 h2
      exact ⟨h1.symm, r, h2⟩

theorem pyIn_iff (n : List Char) : ∀ h : List Char, pyIn n h = true ↔ SubstringOf n h
  | [] => by
    cases n <;> simp [pyIn, SubstringOf, List.isEmpty]
  | c :: t => by
    rw [show pyIn n (c :: t) = (pyStartswith (c :: t) n || pyIn n t) from rfl]
    simp only [Bool.or_eq_true, pyStartswith_iff, pyIn_iff n t]
    constructor
    · rintro (⟨r, hr⟩ | ⟨p, q, hpq⟩)
      · exact ⟨[], r, by simpa using hr⟩
      · exact ⟨c :: p, q, by rw [← hpq]; simp⟩
    · rintro ⟨p, q, hpq⟩
      cases p with
      | nil => exact Or.inl ⟨q, by simpa using hpq⟩
      | cons a p =>
        right
        rw [List.cons_append, List.cons_append] at hpq
        injection hpq with h1 h2
        exact ⟨p, q, h2⟩

/-- The inline verdict classification of `src/udp_qa_agent.py` lines 260-264
(the repository test suite calls the same logic `_check_test_passed`):
`passed` starts `False`, the first branch sets it `True` exactly when the
return code is 0 and stderr contains "OK" without "FAIL" or "ERROR", and the
`elif` branch sets it back to `False`. -/
def check_test_passed (return_code : Int) (test_stderr : List Char) : Bool :=
  let passed := false
  if return_code == 0 &&
      (pyIn "OK".data test_stderr && !pyIn "FAIL".data test_stderr &&
        !pyIn "ERROR".data test_stderr) then
    true
  else if pyIn "FAIL".data test_stderr || pyIn "ERROR".data test_stderr then
    false
  else passed

/-- C2. Outcome classification: a run is classified as passing exactly when
the exit code equals 0 and the captured stderr contains "OK" and contains
neither "FAIL" nor "ERROR"; in particular exit code 0 with stderr
"Ran 3 tests in 0.01s\n\nOK" classifies as Pass, and exit code 1 with a
stderr containing "FAILED (failures=1)" classifies as Fail. -/
theorem outcome_classification (rc : Int) (e : List Char) :
    (check_test_passed rc e = true ↔
      rc = 0 ∧ SubstringOf "OK".data e ∧ ¬ SubstringOf "FAIL".data e ∧
        ¬ SubstringOf "ERROR".data e) ∧
    check_test_passed 0 "Ran 3 tests in 0.01s\n\nOK".data = true ∧
    check_test_passed 1 "FAILED (failures=1)".data = false := by
  refine ⟨?_, by decide, by decide⟩
  cases hOK : pyIn "OK".data e <;> cases hF : pyIn "FAIL".data e <;>
    cases hE : pyIn "ERROR".data e <;> by_cases hrc : rc = 0 <;>
    simp [check_test_passed, hOK, hF, hE, hrc, ← pyIn_iff]

/-- Configured retry budget, `src/udp_qa_agent.py` line 20. -/
def MAX_REFINEMENT_RETRIES : Nat := 3

/-- Terminal outcome of the per-asset refinement loop. -/
inductive Outcome where
  | Passed
  | Exhausted
  | Aborted
deriving DecidableEq

/-- Oracle for one refinement attempt: whether `start_background_process`
returns a handle rather than `None`, the captured output and exit code of
the foreground test run, and the LLM response to a fix request (`none`
models `call_ollama_llm` returning `None`). -/
structure AttemptEnv where
  startOk : Bool
  runStdout : List Char
  runStderr : List Char
  runCode : Int
  fixResponse : Option (List Char)

/-- The function-scoped mutable variables of `phase_3_iterative_testing`
that survive between assets: `all_tests_passed_overall`, and the local
variable `passed` where `none` models the variable never having been
assigned. -/
structure LoopState where
  allPassed : Bool
  passedVar : Option Bool
deriving DecidableEq

/-- Result of driving one asset through the retry loop. -/
structure AssetResult where
  outcome : Outcome
  attemptsUsed : Nat
  st : LoopState
deriving DecidableEq

/-- Fix-response marker, `src/udp_qa_agent.py` line 317. -/
def fixMockMarker : List Char := "Updated Mock Code:".data

/-- Fix-response marker, `src/udp_qa_agent.py` line 318. -/
def fixTestMarker : List Char := "Updated Test Script Code:".data

/-- The per-asset retry loop of `src/udp_qa_agent.py` lines 220-351:
`for attempt in range(MAX_REFINEMENT_RETRIES + 1)` with `remaining` standing
for the remaining range (`attempt < MAX_REFINEMENT_RETRIES` exactly when
`remaining > 0`).  A start failure breaks out (lines 233-236); a passing
classification breaks out (line 291); a failing classification with
attempts remaining requests a fix and continues only when the response is
truthy and carries at least one of the two markers (lines 294-338); a
failing classification on the final attempt ends the loop (lines 340-342).
`attemptsUsed` counts loop iterations entered. -/
def runAsset (env : Nat → AttemptEnv) : Nat → Nat → LoopState → AssetResult
  | attempt, remaining, st =>
    let e := env attempt
    if e.startOk = false then
      ⟨Outcome.Aborted, 1, { st with allPassed := false }⟩
    else
      if check_test_passed e.runCode e.runStderr then
        ⟨Outcome.Passed, 1, { st with passedVar := some true }⟩
      else
        match remaining with
        | 0 => ⟨Outcome.Exhausted, 1, ⟨false, some false⟩⟩
        | r + 1 =>
          match e.fixResponse with
          | none => ⟨Outcome.Aborted, 1, ⟨false, some false⟩⟩
          | some fix =>
            if fix.isEmpty then ⟨Outcome.Aborted, 1, ⟨false, some false⟩⟩
            else if pyIn fixMockMarker fix || pyIn fixTestMarker fix then
              let res := runAsset env (attempt + 1) r ⟨false, some false⟩
              ⟨res.outcome, res.attemptsUsed + 1, res.st⟩
            else ⟨Outcome.Aborted, 1, ⟨false, some false⟩⟩

/-- Evaluation of `src/udp_qa_agent.py` line 353,
`if not all_tests_passed_overall and not passed:`.  The `and` short-circuits,
so the local `passed` is read only when `all_tests_passed_overall` is False;
reading it while unbound raises UnboundLocalError, modelled as `true`. -/
def line353Crashes (st : LoopState) : Bool :=
  if st.allPassed then false
  else
    match st.passedVar with
    | none => true
    | some _ => false

/-- Result of phase 3 over the whole asset list: the terminal outcomes of
the assets that were actually processed, the final
`all_tests_passed_overall`, and whether the loop died with an
UnboundLocalError before reaching the remaining assets. -/
structure Phase3Result where
  outcomes : List Outcome
  allPassed : Bool
  crashed : Bool
deriving DecidableEq

def phase3Aux : List (Nat → AttemptEnv) → LoopState → Phase3Result
  | [], st => ⟨[], st.allPassed, false⟩
  | a :: rest, st =>
    let r := runAsset a 0 MAX_REFINEMENT_RETRIES st
    if line353Crashes r.st then ⟨[r.outcome], r.st.allPassed, true⟩
    else
      let tail := phase3Aux rest r.st
      ⟨r.outcome :: tail.outcomes, tail.allPassed, tail.crashed⟩

/-- Phase 3 of `src/udp_qa_agent.py` (lines 197-360): drive every generated
asset through the retry loop in order, threading the function-scoped
variables, with the line-353 check after each asset. -/
def phase_3_iterative_testing (assets : List (Nat → AttemptEnv)) : Phase3Result :=
  phase3Aux assets ⟨true, none⟩

theorem runAsset_attempts_le (env : Nat → AttemptEnv) :
    ∀ (remaining attempt : Nat) (st : LoopState),
      (runAsset env attempt remaining st).attemptsUsed ≤ remaining + 1 := by
  intro remaining
  induction remaining with
  | zero =>
    intro attempt st
    rw [runAsset]
    split
    · dsimp only; omega
    · split
      · dsimp only; omega
      · dsimp only; omega
  | succ r ih =>
    intro attempt st
    rw [runAsset]
    split
    · dsimp only; omega
    · split
      · dsimp only; omega
      · dsimp only
        split
        · dsimp only; omega
        · split
          · dsimp only; omega
          · split
            · dsimp only
              have := ih (attempt + 1) ⟨false, some false⟩
              omega
            · dsimp only; omega

/-- C3. Bounded refinement: one asset's retry loop enters at most
`MAX_REFINEMENT_RETRIES + 1 = 4` start-run-classify iterations and always
ends in one of the terminal outcomes Passed, Exhausted or Aborted,
whatever the environment supplies. -/
theorem bounded_refinement (env : Nat → AttemptEnv) (st : LoopState) :
    (runAsset env 0 MAX_REFINEMENT_RETRIES st).attemptsUsed ≤ MAX_REFINEMENT_RETRIES + 1 ∧
    ((runAsset env 0 MAX_REFINEMENT_RETRIES st).outcome = Outcome.Passed ∨
      (runAsset env 0 MAX_REFINEMENT_RETRIES st).outcome = Outcome.Exhausted ∨
      (runAsset env 0 MAX_REFINEMENT_RETRIES st).outcome = Outcome.Aborted) := by
  refine ⟨runAsset_attempts_le env MAX_REFINEMENT_RETRIES 0 st, ?_⟩
  cases (runAsset env 0 MAX_REFINEMENT_RETRIES st).outcome
  · exact Or.inl rfl
  · exact Or.inr (Or.inl rfl)
  · exact Or.inr (Or.inr rfl)

theorem runAsset_allPassed_mono (env : Nat → AttemptEnv) :
    ∀ (remaining attempt : Nat) (st : LoopState), st.allPassed = false →
      (runAsset env attempt remaining st).st.allPassed = false := by
  intro remaining
  induction remaining with
  | zero =>
    intro attempt st h
    rw [runAsset]
    split
    · exact rfl
    · split
      · exact h
      · exact rfl
  | succ r ih =>
    intro attempt st h
    rw [runAsset]
    split
    · exact rfl
    · split
      · exact h
      · dsimp only
        split
        · exact rfl
        · split
          · exact rfl
          · split
            · exact ih (attempt + 1) ⟨false, some false⟩ rfl
            · exact rfl

/-- Whether an asset's very first attempt starts its mock and classifies as
passing. -/
def firstAttemptPassesB (env : Nat → AttemptEnv) : Bool :=
  (env 0).startOk && check_test_passed (env 0).runCode (env 0).runStderr

theorem runAsset_first_pass (env : Nat → AttemptEnv) (st : LoopState)
    (h : firstAttemptPassesB env = true) :
    runAsset env 0 MAX_REFINEMENT_RETRIES st =
      ⟨Outcome.Passed, 1, ⟨st.allPassed, some true⟩⟩ := by
  rw [runAsset.eq_def]
  dsimp only
  simp only [firstAttemptPassesB, Bool.and_eq_true] at h
  rw [h.1]
  simp [h.2]

theorem runAsset_first_fail (env : Nat → AttemptEnv) (st : LoopState)
    (h : firstAttemptPassesB env = false) :
    ∀ remaining, (runAsset env 0 remaining st).st.allPassed = false := by
  intro remaining
  rw [runAsset.eq_def]
  dsimp only
  simp only [firstAttemptPassesB, Bool.and_eq_false_iff] at h
  rcases h with h | h
  · simp [h]
  · rcases hs : (env 0).startOk with _ | _
    · simp [hs]
    · rw [if_neg (by simp [hs]), if_neg (by simp [h])]
      cases remaining with
      | zero => rfl
      | succ r =>
        dsimp only
        split
        · rfl
        · split
          · rfl
          · split
            · exact runAsset_allPassed_mono env r 1 ⟨false, some false⟩ rfl
            · rfl

theorem line353Crashes_assigned (b v : Bool) : line353Crashes ⟨b, some v⟩ = false := by
  cases b <;> rfl

theorem phase3Aux_allPassed :
    ∀ (assets : List (Nat → AttemptEnv)) (st : LoopState),
      (phase3Aux assets st).allPassed =
        (st.allPassed && assets.all firstAttemptPassesB)
  | [], st => by simp [phase3Aux]
  | a :: rest, st => by
    rw [phase3Aux]
    by_cases h : firstAttemptPassesB a = true
    · rw [runAsset_first_pass a st h]
      dsimp only
      rw [line353Crashes_assigned]
      simp only [if_false, Bool.false_eq_true]
      rw [phase3Aux_allPassed rest ⟨st.allPassed, some true⟩]
      simp [List.all_cons, h]
    · have hb : firstAttemptPassesB a = false := Bool.eq_false_iff.mpr h
      have hfail := runAsset_first_fail a st hb MAX_REFINEMENT_RETRIES
      split
      · dsimp only
        rw [hfail]
        simp [List.all_cons, hb]
      · dsimp only
        rw [phase3Aux_allPassed rest (runAsset a 0 MAX_REFINEMENT_RETRIES st).st]
        rw [hfail]
        simp [List.all_cons, hb]

/-- C7 (amended). Overall aggregation: the final
`all_tests_passed_overall` indicator is true if and only if every asset
passed on its very first attempt; an asset that fails an early attempt and
passes within the budget still reaches Passed, but the indicator
nevertheless reports failure (line 296 clears it before the fix request). -/
theorem overall_aggregation (assets : List (Nat → AttemptEnv)) :
    (phase_3_iterative_testing assets).allPassed = true ↔
      ∀ a ∈ assets, firstAttemptPassesB a = true := by
  unfold phase_3_iterative_testing
  rw [phase3Aux_allPassed]
  simp [List.all_eq_true]

/-- Environment of an asset that fails its first attempt (stderr carries
"FAILED"), receives a fix response carrying the mock marker, and passes its
second attempt. -/
def failThenPassEnv : Nat → AttemptEnv := fun n =>
  if n = 0 then
    ⟨true, [], "FAILED (failures=1)".data, 1, some "Updated Mock Code: print(1)".data⟩
  else ⟨true, [], "Ran 1 test in 0.01s\n\nOK".data, 0, none⟩

/-- C7 counterexample: for a single asset that fails attempt 0 and passes
attempt 1, every asset reaches the Passed outcome, yet the overall
indicator ends False — refuting "true if and only if every asset reached
the Passed outcome". -/
theorem overall_aggregation_counterexample :
    (phase_3_iterative_testing [failThenPassEnv]).outcomes = [Outcome.Passed] ∧
    (phase_3_iterative_testing [failThenPassEnv]).allPassed = false := by
  constructor
  · decide
  · decide

/-- Environment of an asset whose mock never starts. -/
def startFailEnv : Nat → AttemptEnv := fun _ => ⟨false, [], [], 1, none⟩

/-- Environment of an asset that passes immediately. -/
def alwaysPassEnv : Nat → AttemptEnv := fun _ => ⟨true, [], "OK".data, 0, none⟩

/-- C1 (code-bug evidence). With two assets where the first asset's mock
fails to start on its very first attempt, line 353 reads the still-unbound
local `passed` and phase 3 dies with UnboundLocalError: only one terminal
outcome is produced and the second asset is never processed — even though
that second asset, run on its own, reaches Passed. -/
theorem asset_isolation_failure :
    phase_3_iterative_testing [startFailEnv, alwaysPassEnv] =
      ⟨[Outcome.Aborted], false, true⟩ ∧
    phase_3_iterative_testing [alwaysPassEnv] = ⟨[Outcome.Passed], true, false⟩ := by
  constructor
  · decide
  · decide

/-- Observable events of one iteration of the attempt body,
`src/udp_qa_agent.py` lines 224-351. -/
inductive AttemptEvent where
  | startMock
  | runTest
  | classifyVerdict
  | releaseHandle
deriving DecidableEq

/-- Event trace of one attempt body (`try:` lines 228-348, `finally:` lines
349-351).  When the start returns `None` no handle exists, so the `finally`
block skips the stop call; when the body raises after the run, the
`finally` block still stops the process, but classification (lines 260-264)
never happens; on the normal path the classification at lines 260-264 runs
inside the `try` block, before the `finally` block releases the handle. -/
def attemptEvents (startOk : Bool) (bodyRaises : Bool) : List AttemptEvent :=
  if startOk = false then [AttemptEvent.startMock]
  else if bodyRaises then
    [AttemptEvent.startMock, AttemptEvent.runTest, AttemptEvent.releaseHandle]
  else
    [AttemptEvent.startMock, AttemptEvent.runTest, AttemptEvent.classifyVerdict,
      AttemptEvent.releaseHandle]

/-- C4 (amended). Handle release: on every attempt that acquired a mock
process handle the handle is released, on normal exit and on exception
unwinding alike (the `finally` block), and release is the last event of the
attempt; but the release happens after classification, not before —
whenever the classify event occurs it precedes the release event. -/
theorem handle_release_ordering (bodyRaises : Bool) :
    AttemptEvent.releaseHandle ∈ attemptEvents true bodyRaises ∧
    (attemptEvents true bodyRaises).getLast? = some AttemptEvent.releaseHandle ∧
    ((attemptEvents true bodyRaises).indexOf AttemptEvent.classifyVerdict <
        (attemptEvents true bodyRaises).indexOf AttemptEvent.releaseHandle ∨
      AttemptEvent.classifyVerdict ∉ attemptEvents true bodyRaises) := by
  cases bodyRaises <;> decide

/-- C4 counterexample: in a normal attempt the verdict is classified while
the handle is still held; the release (the `finally` block) strictly
follows the classification, refuting "released before the run result is
classified". -/
theorem handle_release_ordering_counterexample :
    AttemptEvent.classifyVerdict ∈ attemptEvents true false ∧
    AttemptEvent.releaseHandle ∈ attemptEvents true false ∧
    (attemptEvents true false).indexOf AttemptEvent.classifyVerdict <
      (attemptEvents true false).indexOf AttemptEvent.releaseHandle := by
  decide

/-- Possible behaviours of the foreground subprocess call inside
`run_script_and_get_output`. -/
inductive ExecOutcome where
  | completed (stdout : List Char) (stderr : List Char) (code : Int)
  | fileNotFound
  | timedOut
  | otherError (msg : List Char)
deriving DecidableEq

/-- The test runner `run_script_and_get_output` of `src/agent_utils.py`
lines 177-199: every exceptional path (`FileNotFoundError`,
`subprocess.TimeoutExpired`, any other `Exception`) is caught and converted
into a returned `(stdout, stderr, return_code)` triple, so the call never
raises across its boundary; the timeout path returns an empty stdout, the
synthetic message of line 196 and exit code 1. -/
def run_script_and_get_output (script_path : List Char) (timeout : Nat)
    (outcome : ExecOutcome) : List Char × List Char × Int :=
  match outcome with
  | ExecOutcome.completed o e c => (o, e, c)
  | ExecOutcome.fileNotFound =>
      ([], "Python interpreter or script ".data ++ script_path ++ " not found.".data, 1)
  | ExecOutcome.timedOut =>
      ([], "Script execution timed out after ".data ++ (Nat.repr timeout).data ++
        " seconds.".data, 1)
  | ExecOutcome.otherError msg => ([], msg, 1)

/-- C5 (amended). Test runner timeout contract: the runner is a total
function into a `(stdout, stderr, exit_code)` triple — every exception is
caught, so nothing raises across the boundary — and on a timeout the triple
has empty stdout, the synthetic timeout message as stderr, and exit code 1,
which is non-zero; the triple carries no `timed_out` boolean field. -/
theorem runner_timeout_contract (script_path : List Char) (timeout : Nat) :
    (run_script_and_get_output script_path timeout ExecOutcome.timedOut).1 = [] ∧
    (run_script_and_get_output script_path timeout ExecOutcome.timedOut).2.1 =
      "Script execution timed out after ".data ++ (Nat.repr timeout).data ++
        " seconds.".data ∧
    SubstringOf "timed out".data
      (run_script_and_get_output script_path timeout ExecOutcome.timedOut).2.1 ∧
    (run_script_and_get_output script_path timeout ExecOutcome.timedOut).2.2 = 1 ∧
    (1 : Int) ≠ 0 := by
  refine ⟨rfl, rfl, ?_, rfl, by decide⟩
  refine ⟨"Script execution ".data,
    " after ".data ++ (Nat.repr timeout).data ++ " seconds.".data, ?_⟩
  show "Script execution ".data ++ "timed out".data ++
      (" after ".data ++ (Nat.repr timeout).data ++ " seconds.".data) =
    "Script execution timed out after ".data ++ (Nat.repr timeout).data ++
      " seconds.".data
  rw [show "Script execution timed out after ".data =
      "Script execution ".data ++ "timed out".data ++ " after ".data by decide]
  simp [List.append_assoc]

/-- C5 counterexample: the triple returned for a timed-out run is identical
to the triple of a normally-completed run that exited 1 with the same text,
so no component of the return value — in particular no `timed_out` field —
records that the timeout occurred, although the two behaviours differ. -/
theorem runner_timeout_counterexample :
    run_script_and_get_output "t.py".data 60 ExecOutcome.timedOut =
      run_script_and_get_output "t.py".data 60
        (ExecOutcome.completed []
          "Script execution timed out after 60 seconds.".data 1) ∧
    ExecOutcome.timedOut ≠
      ExecOutcome.completed [] "Script execution timed out after 60 seconds.".data 1 := by
  constructor
  · decide
  · decide

/-- Abstract state of one background subprocess together with the OS-level
behaviour the supervisor can observe: whether it is currently running,
whether it traps the graceful terminate signal, and whether it would exit
on its own inside the bounded wait window. -/
structure ProcState where
  running : Bool
  trapsTerm : Bool
  exitsDuringWait : Bool
deriving DecidableEq

/-- `process.poll()`: `None` while running, an exit code once dead. -/
def procPoll (p : ProcState) : Option Int :=
  if p.running then none else some 0

/-- `process.terminate()`: SIGTERM ends the process unless it traps the
signal. -/
def procTerminate (p : ProcState) : ProcState :=
  if p.trapsTerm then p else { p with running := false }

/-- `process.wait(timeout=5)`: `ok` when the process ends inside the
window, `error` models `subprocess.TimeoutExpired`. -/
def procWaitTimeout (p : ProcState) : Except Unit ProcState :=
  if p.running = false then Except.ok p
  else if p.exitsDuringWait then Except.ok { p with running := false }
  else Except.error ()

/-- `process.kill()`: SIGKILL cannot be trapped; the subsequent `wait()`
observes the dead process. -/
def procKill (p : ProcState) : ProcState := { p with running := false }

/-- `stop_background_process` of `src/agent_utils.py` lines 161-174: if the
process is still running, terminate it gracefully and wait up to the fixed
timeout; on `TimeoutExpired`, kill it and wait for the exit; a process that
already exited is only reported, never touched. -/
def stop_background_process (p : ProcState) : ProcState :=
  if (procPoll p).isNone then
    let p1 := procTerminate p
    match procWaitTimeout p1 with
    | Except.ok p2 => p2
    | Except.error _ => procKill p1
  else p

/-- C9. Guaranteed stop: after `stop_background_process` returns the
process is not running — also when it traps the graceful terminate signal
and must be force-killed — and calling stop on a handle whose process has
already exited is safe and leaves it unchanged. -/
theorem guaranteed_stop (p : ProcState) :
    (stop_background_process p).running = false ∧
    stop_background_process { p with running := false } =
      { p with running := false } := by
  constructor
  · unfold stop_background_process procPoll procTerminate procWaitTimeout procKill
    rcases p with ⟨r, t, w⟩
    cases r <;> cases t <;> cases w <;> simp
  · unfold stop_background_process procPoll
    simp

/-- Everything after the first colon of a line: Python
`line.split(":", 1)[1]`, used only on lines known to contain a colon. -/
def afterFirstColon : List Char → List Char
  | [] => []
  | ':' :: rest => rest
  | _ :: rest => afterFirstColon rest

/-- Run of decimal digits, or `none` when empty or not all digits. -/
def parseDigits (cs : List Char) : Option Nat :=
  if cs ≠ [] ∧ cs.all Char.isDigit then
    some (cs.foldl (fun n c => n * 10 + (c.toNat - 48)) 0)
  else none

/-- Model of the Python `int()` conversion applied to an already-stripped
string: an optional sign followed by one or more decimal digits; anything
else raises `ValueError`, modelled as `none`. -/
def pyInt (s : List Char) : Option Int :=
  match s with
  | '+' :: rest => (parseDigits rest).map (fun n => (n : Int))
  | '-' :: rest => (parseDigits rest).map (fun n => -(n : Int))
  | cs => (parseDigits cs).map (fun n => (n : Int))

/-- Field marker of `src/udp_qa_agent.py` line 126. -/
def nameMarker : List Char := "Service Name:".data

/-- Field marker of `src/udp_qa_agent.py` line 129. -/
def portMarker : List Char := "Port:".data

/-- Field marker of `src/udp_qa_agent.py` line 135. -/
def funcMarker : List Char := "Functionality Summary:".data

/-- One buffered service record: the Python dict built by the phase-2
parsing loop.  `port = none` models the key being absent, `port = some
none` models the stored Python `None` after a failed `int()` parse. -/
structure ServiceRec where
  name : List Char
  port : Option (Option Int)
  functionality : Option (List Char)
deriving DecidableEq

/-- The service parsing loop of `src/udp_qa_agent.py` lines 123-138: on a
"Service Name:" line flush the buffered record (if any) unconditionally and
start a new buffer; on a "Port:" line with a non-empty buffer store the
`int()` parse, `None` on failure; on a "Functionality Summary:" line with a
non-empty buffer store the summary; after the scan append the final buffer
only when its port key is present and is not `None` (line 137). -/
def services_to_test_aux :
    List (List Char) → Option ServiceRec → List ServiceRec → List ServiceRec
  | [], cur, acc =>
    match cur with
    | some c =>
      match c.port with
      | some (some _) => acc ++ [c]
      | _ => acc
    | none => acc
  | l :: ls, cur, acc =>
    if pyStartswith l nameMarker then
      services_to_test_aux ls (some ⟨pyStrip (afterFirstColon l), none, none⟩)
        (acc ++ cur.toList)
    else if pyStartswith l portMarker then
      match cur with
      | some c =>
        services_to_test_aux ls
          (some { c with port := some (pyInt (pyStrip (afterFirstColon l))) }) acc
      | none => services_to_test_aux ls none acc
    else if pyStartswith l funcMarker then
      match cur with
      | some c =>
        services_to_test_aux ls
          (some { c with functionality := some (pyStrip (afterFirstColon l)) }) acc
      | none => services_to_test_aux ls none acc
    else services_to_test_aux ls cur acc

/-- The `services_to_test` list that the parsing loop produces from the
lines of the identified-services text. -/
def services_to_test (lines : List (List Char)) : List ServiceRec :=
  services_to_test_aux lines none []

/-- Python truthiness of the port value fetched with `dict.get("port")` in
the generation loop (`if not port:` at line 152): `None` and `0` are falsy,
every other integer is truthy. -/
def portTruthy (p : Option (Option Int)) : Bool :=
  match p with
  | some (some n) => n != 0
  | _ => false

/-- The descriptors that survive the "skipping service due to missing port
information" filter of `src/udp_qa_agent.py` lines 147-154 and proceed to
asset generation. -/
def usable_services (lines : List (List Char)) : List ServiceRec :=
  (services_to_test lines).filter (fun r => portTruthy r.port)

/-- Names extracted from the "Service Name:" lines of the source text, in
source order. -/
def serviceNameLines (lines : List (List Char)) : List (List Char) :=
  (lines.filter (fun l => pyStartswith l nameMarker)).map
    (fun l => pyStrip (afterFirstColon l))

theorem services_aux_names :
    ∀ (lines : List (List Char)) (cur : Option ServiceRec) (acc : List ServiceRec),
      ∃ t, (services_to_test_aux lines cur acc).map ServiceRec.name ++ t =
        acc.map ServiceRec.name ++ cur.toList.map ServiceRec.name ++
          serviceNameLines lines
  | [], cur, acc => by
    rcases cur with _ | c
    · exact ⟨[], by simp [services_to_test_aux, serviceNameLines]⟩
    · rcases hp : c.port with _ | op
      · exact ⟨[c.name], by simp [services_to_test_aux, serviceNameLines, hp]⟩
      · rcases op with _ | n
        · exact ⟨[c.name], by simp [services_to_test_aux, serviceNameLines, hp]⟩
        · exact ⟨[], by simp [services_to_test_aux, serviceNameLines, hp]⟩
  | l :: ls, cur, acc => by
    by_cases h1 : pyStartswith l nameMarker = true
    · rcases services_aux_names ls (some ⟨pyStrip (afterFirstColon l), none, none⟩)
        (acc ++ cur.toList) with ⟨t, ht⟩
      refine ⟨t, ?_⟩
      rw [services_to_test_aux.eq_def]
      dsimp only
      rw [if_pos h1, ht]
      simp [serviceNameLines, List.filter_cons, h1, List.append_assoc]
    · have h1f : pyStartswith l nameMarker = false := Bool.eq_false_iff.mpr h1
      have hsnl : serviceNameLines (l :: ls) = serviceNameLines ls := by
        simp [serviceNameLines, List.filter_cons, h1f]
      by_cases h2 : pyStartswith l portMarker = true
      · rcases cur with _ | c
        · rcases services_aux_names ls none acc with ⟨t, ht⟩
          refine ⟨t, ?_⟩
          rw [services_to_test_aux.eq_def]
          dsimp only
          rw [if_neg (by simp [h1f]), if_pos h2, hsnl]
          exact ht
        · rcases services_aux_names ls
            (some { c with port := some (pyInt (pyStrip (afterFirstColon l))) }) acc
            with ⟨t, ht⟩
          refine ⟨t, ?_⟩
          rw [services_to_test_aux.eq_def]
          dsimp only
          rw [if_neg (by simp [h1f]), if_pos h2, hsnl]
          exact ht
      · by_cases h3 : pyStartswith l funcMarker = true
        · rcases cur with _ | c
          · rcases services_aux_names ls none acc with ⟨t, ht⟩
            refine ⟨t, ?_⟩
            rw [services_to_test_aux.eq_def]
            dsimp only
            rw [if_neg (by simp [h1f]), if_neg (by simp [Bool.eq_false_iff.mpr h2]),
              if_pos h3, hsnl]
            exact ht
          · rcases services_aux_names ls
              (some { c with functionality := some (pyStrip (afterFirstColon l)) }) acc
              with ⟨t, ht⟩
            refine ⟨t, ?_⟩
            rw [services_to_test_aux.eq_def]
            dsimp only
            rw [if_neg (by simp [h1f]), if_neg (by simp [Bool.eq_false_iff.mpr h2]),
              if_pos h3, hsnl]
            exact ht
        · rcases services_aux_names ls cur acc with ⟨t, ht⟩
          refine ⟨t, ?_⟩
          rw [services_to_test_aux.eq_def]
          dsimp only
          rw [if_neg (by simp [h1f]), if_neg (by simp [Bool.eq_false_iff.mpr h2]),
            if_neg (by simp [Bool.eq_false_iff.mpr h3]), hsnl]
          exact ht

theorem usable_services_ports (lines : List (List Char)) :
    ∀ r ∈ usable_services lines, ∃ n : Int, r.port = some (some n) ∧ n ≠ 0 := by
  intro r hr
  rcases List.mem_filter.mp hr with ⟨_, hp⟩
  rcases h : r.port with _ | op
  · simp [portTruthy, h] at hp
  · rcases op with _ | n
    · simp [portTruthy, h] at hp
    · exact ⟨n, rfl, by simpa [portTruthy, h] using hp⟩

/-- C6 (amended). Catalog validity and order: every descriptor that
survives parsing and the downstream port filter has a port that `int()`
parsed successfully to a nonzero — but not necessarily positive — integer
(a negative port such as -7 survives, see the counterexample; a record
whose port failed to parse, parsed to 0, or is missing is excluded); the
surviving descriptors are a sublist of the parsed records, and the parsed
records carry the names of the "Service Name:" lines in source order (at
most the final buffered record is dropped). -/
theorem catalog_validity_order (lines : List (List Char)) :
    (∀ r ∈ usable_services lines, ∃ n : Int, r.port = some (some n) ∧ n ≠ 0) ∧
    List.Sublist (usable_services lines) (services_to_test lines) ∧
    ∃ t, (services_to_test lines).map ServiceRec.name ++ t =
      serviceNameLines lines := by
  refine ⟨usable_services_ports lines, List.filter_sublist _, ?_⟩
  rcases services_aux_names lines none [] with ⟨t, ht⟩
  exact ⟨t, by simpa [services_to_test] using ht⟩

/-- A catalog whose single record declares a negative port. -/
def negPortCatalog : List (List Char) :=
  ["Service Name: Telemetry".data, "Port: -7".data,
    "Functionality Summary: sends beacons".data]

/-- C6 counterexample: a record with port text "-7" parses to the integer
-7, survives the `if not port:` filter (Python truthiness of -7), and
proceeds to asset generation with a port that is not a positive integer. -/
theorem catalog_validity_counterexample :
    usable_services negPortCatalog =
      [⟨"Telemetry".data, some (some (-7)), some "sends beacons".data⟩] ∧
    ¬ (0 : Int) < -7 := by
  constructor
  · decide
  · decide

theorem marker_head_not_name (l : List Char)
    (h : pyStartswith l portMarker = true ∨ pyStartswith l funcMarker = true) :
    pyStartswith l nameMarker = false := by
  rcases h with h | h
  · rcases (pyStartswith_iff l portMarker).mp h with ⟨r, hr⟩
    subst hr
    rfl
  · rcases (pyStartswith_iff l funcMarker).mp h with ⟨r, hr⟩
    subst hr
    rfl

theorem services_aux_skip :
    ∀ (pre : List (List Char)),
      (∀ l ∈ pre, pyStartswith l nameMarker = false) →
      ∀ (rest : List (List Char)) (acc : List ServiceRec),
        services_to_test_aux (pre ++ rest) none acc =
          services_to_test_aux rest none acc
  | [], _, _, _ => rfl
  | l :: pre, h, rest, acc => by
    have hl : pyStartswith l nameMarker = false := h l (List.mem_cons_self l pre)
    have hrec := services_aux_skip pre
      (fun x hx => h x (List.mem_cons_of_mem l hx)) rest acc
    rw [List.cons_append, services_to_test_aux.eq_def]
    dsimp only
    rw [if_neg (by simp [hl])]
    by_cases hp : pyStartswith l portMarker = true
    · rw [if_pos hp]
      exact hrec
    · rw [if_neg (by simp [Bool.eq_false_iff.mpr hp])]
      by_cases hf : pyStartswith l funcMarker = true
      · rw [if_pos hf]
        exact hrec
      · rw [if_neg (by simp [Bool.eq_false_iff.mpr hf])]
        exact hrec

/-- C10. Leading field lines are silently discarded: any "Port:" or
"Functionality Summary:" lines that precede the first "Service Name:" line
meet an empty buffered record (`current_service` is falsy), fall through
every branch without effect and without error, and so contribute to no
descriptor — prepending them leaves the parse unchanged. -/
theorem leading_field_lines_discarded (pre rest : List (List Char))
    (h : ∀ l ∈ pre,
      pyStartswith l portMarker = true ∨ pyStartswith l funcMarker = true) :
    services_to_test (pre ++ rest) = services_to_test rest := by
  unfold services_to_test
  exact services_aux_skip pre (fun l hl => marker_head_not_name l (h l hl)) rest []

/-- A small catalog used to exercise the parser theorems. -/
def demoCatalog : List (List Char) :=
  ["Service Name: Auth".data, "Port: 4242".data,
    "Functionality Summary: handles auth packets".data]

/-- Concrete instantiation of `leading_field_lines_discarded`: two stray
field lines ahead of the first name line change nothing. -/
theorem leading_field_lines_discarded_witness :
    (∀ l ∈ (["Port: 9999".data, "Functionality Summary: stray".data] :
        List (List Char)),
      pyStartswith l portMarker = true ∨ pyStartswith l funcMarker = true) ∧
    services_to_test
        (["Port: 9999".data, "Functionality Summary: stray".data] ++ demoCatalog) =
      services_to_test demoCatalog :=
  ⟨by decide,
    leading_field_lines_discarded
      ["Port: 9999".data, "Functionality Summary: stray".data] demoCatalog
      (by decide)⟩

/-- Markdown fence delimiter, `src/agent_utils.py` lines 121-123. -/
def fence : List Char := "```".data

/-- Python-tagged markdown fence, `src/agent_utils.py` line 118. -/
def pythonFence : List Char := "```python".data

/-- First statement block of the cleanup in `src/agent_utils.py` lines
117-121 (identical to `_clean_code_block` in
`src/src/udp_qa_agent/utils.py` lines 185-195): strip a leading
"```python" or, failing that, a leading "```", then strip whitespace. -/
def cleanLeadingFence (text : List Char) : List Char :=
  if pyStartswith text pythonFence then pyStrip (text.drop pythonFence.length)
  else if pyStartswith text fence then pyStrip (text.drop fence.length)
  else text

/-- The full cleanup of `src/agent_utils.py` lines 117-123: the leading
fence treatment above followed by removal of a trailing "```"
(`generated_text[:-len("```")].strip()`). -/
def clean_code_block (text : List Char) : List Char :=
  let t1 := cleanLeadingFence text
  if pyEndswith t1 fence then pyStrip (t1.take (t1.length - fence.length))
  else t1

theorem clean_code_block_eq (text : List Char) :
    clean_code_block text =
      if pyEndswith (cleanLeadingFence text) fence then
        pyStrip ((cleanLeadingFence text).take
          ((cleanLeadingFence text).length - fence.length))
      else cleanLeadingFence text := rfl

theorem dropWhile_length_le_self (p : Char → Bool) :
    ∀ l : List Char, (l.dropWhile p).length ≤ l.length
  | [] => Nat.le_refl _
  | c :: cs => by
    rw [List.dropWhile_cons]
    split
    · exact Nat.le_trans (dropWhile_length_le_self p cs) (Nat.le_succ _)
    · exact Nat.le_refl _

theorem dropWhile_head_false {p : Char → Bool} {c : Char} {l : List Char}
    (h : (c :: l).dropWhile p = c :: l) : p c = false := by
  by_contra hc
  rw [Bool.not_eq_false] at hc
  rw [List.dropWhile_cons_of_pos hc] at h
  have hlen := dropWhile_length_le_self p l
  have hlen2 := congrArg List.length h
  simp only [List.length_cons] at hlen2
  omega

theorem dropWhile_append_eq {p : Char → Bool} {l : List Char} (r : List Char)
    (hne : l ≠ []) (hl : l.dropWhile p = l) :
    (l ++ r).dropWhile p = l ++ r := by
  cases l with
  | nil => exact absurd rfl hne
  | cons c cs =>
    have hc := dropWhile_head_false hl
    rw [List.cons_append, List.dropWhile_cons_of_neg (by simp [hc])]

theorem pyStrip_newline_fence (body : List Char) (hne : body ≠ [])
    (hL : body.dropWhile pySpace = body) :
    pyStrip ('\n' :: (body ++ '\n' :: fence)) = body ++ '\n' :: fence := by
  unfold pyStrip
  rw [List.dropWhile_cons_of_pos (by decide)]
  rw [dropWhile_append_eq ('\n' :: fence) hne hL]
  rw [List.reverse_append]
  rw [show ('\n' :: fence).reverse = '`' :: '`' :: '`' :: ['\n'] from by decide]
  rw [show (('`' :: '`' :: '`' :: ['\n'] : List Char) ++ body.reverse)
      = '`' :: ('`' :: '`' :: '\n' :: body.reverse) from rfl]
  rw [List.dropWhile_cons_of_neg (by decide)]
  rw [show ('`' :: '`' :: '`' :: '\n' :: body.reverse : List Char)
      = ('`' :: '`' :: '`' :: ['\n']) ++ body.reverse from rfl]
  rw [List.reverse_append, List.reverse_reverse]
  rw [show ('`' :: '`' :: '`' :: ['\n'] : List Char).reverse = '\n' :: fence
    from by decide]

theorem pyStrip_body_newline (body : List Char) (hne : body ≠ [])
    (hL : body.dropWhile pySpace = body)
    (hR : body.reverse.dropWhile pySpace = body.reverse) :
    pyStrip (body ++ ['\n']) = body := by
  unfold pyStrip
  rw [dropWhile_append_eq ['\n'] hne hL]
  rw [List.reverse_append]
  rw [show (['\n'] : List Char).reverse ++ body.reverse
      = '\n' :: body.reverse from rfl]
  rw [List.dropWhile_cons_of_pos (by decide), hR, List.reverse_reverse]

theorem clean_second_phase (body : List Char) (hne : body ≠ [])
    (hL : body.dropWhile pySpace = body)
    (hR : body.reverse.dropWhile pySpace = body.reverse) :
    (if pyEndswith (body ++ '\n' :: fence) fence then
        pyStrip ((body ++ '\n' :: fence).take
          ((body ++ '\n' :: fence).length - fence.length))
      else (body ++ '\n' :: fence)) = body := by
  have hEnd : pyEndswith (body ++ '\n' :: fence) fence = true := by
    unfold pyEndswith
    refine (pyStartswith_iff _ _).mpr ⟨'\n' :: body.reverse, ?_⟩
    rw [List.reverse_append]
    rw [show ('\n' :: fence).reverse = '`' :: '`' :: '`' :: ['\n'] from by decide]
    rw [show (fence.reverse : List Char) = fence from by decide]
    rfl
  rw [if_pos hEnd]
  have hlen : (body ++ '\n' :: fence).length - fence.length = body.length + 1 := by
    rw [List.length_append]
    rw [show ('\n' :: fence).length = 4 from rfl, show fence.length = 3 from rfl]
    omega
  rw [hlen]
  have htake : (body ++ '\n' :: fence).take (body.length + 1) = body ++ ['\n'] := by
    rw [List.take_append_eq_append_take]
    rw [List.take_of_length_le (Nat.le_succ _)]
    rw [show body.length + 1 - body.length = 1 from by omega]
    rfl
  rw [htake]
  exact pyStrip_body_newline body hne hL hR

theorem cleanLeadingFence_python (r : List Char) :
    cleanLeadingFence (pythonFence ++ r) = pyStrip r := by
  unfold cleanLeadingFence
  rw [if_pos ((pyStartswith_iff _ _).mpr ⟨r, rfl⟩), List.drop_left]

theorem cleanLeadingFence_plain (r : List Char) :
    cleanLeadingFence (fence ++ ('\n' :: r)) = pyStrip ('\n' :: r) := by
  unfold cleanLeadingFence
  have hpy : pyStartswith (fence ++ ('\n' :: r)) pythonFence = false := rfl
  rw [if_neg (by simp [hpy]),
    if_pos ((pyStartswith_iff _ _).mpr ⟨'\n' :: r, rfl⟩), List.drop_left]

/-- C8 (amended). Fence stripping: a response wrapped in a "```python"
fence has its leading fence, language tag and trailing fence removed,
giving back the fenced body; a response wrapped in bare "```" fences is
likewise unwrapped; but a language tag is removed only when it is exactly
"python" — a fence with any other tag loses only its three backticks,
keeping the tag in the text (see the counterexample) — and text carrying
neither fence is returned unchanged. -/
theorem fence_stripping (body t : List Char) (hne : body ≠ [])
    (hL : body.dropWhile pySpace = body)
    (hR : body.reverse.dropWhile pySpace = body.reverse)
    (hpre : pyStartswith t fence = false)
    (hsuf : pyEndswith t fence = false) :
    clean_code_block ("```python\n".data ++ body ++ "\n```".data) = body ∧
    clean_code_block ("```\n".data ++ body ++ "\n```".data) = body ∧
    clean_code_block t = t := by
  refine ⟨?_, ?_, ?_⟩
  · have hsplit : "```python\n".data ++ body ++ "\n```".data
        = pythonFence ++ ('\n' :: (body ++ '\n' :: fence)) := by
      rw [show "```python\n".data = pythonFence ++ ['\n'] from by decide]
      rw [show "\n```".data = '\n' :: fence from by decide]
      simp [List.append_assoc]
    rw [hsplit, clean_code_block_eq, cleanLeadingFence_python,
      pyStrip_newline_fence body hne hL]
    exact clean_second_phase body hne hL hR
  · have hsplit : "```\n".data ++ body ++ "\n```".data
        = fence ++ ('\n' :: (body ++ '\n' :: fence)) := by
      rw [show "```\n".data = fence ++ ['\n'] from by decide]
      rw [show "\n```".data = '\n' :: fence from by decide]
      simp [List.append_assoc]
    rw [hsplit, clean_code_block_eq, cleanLeadingFence_plain,
      pyStrip_newline_fence body hne hL]
    exact clean_second_phase body hne hL hR
  · have hpy : pyStartswith t pythonFence = false := by
      rcases hq : pyStartswith t pythonFence with _ | _
      · rfl
      · exfalso
        rcases (pyStartswith_iff t pythonFence).mp hq with ⟨r, hr⟩
        have hft : pyStartswith t fence = true := by
          refine (pyStartswith_iff t fence).mpr ⟨"python".data ++ r, ?_⟩
          rw [← hr, show pythonFence = fence ++ "python".data from by decide]
          simp [List.append_assoc]
        rw [hft] at hpre
        simp at hpre
    have hlead : cleanLeadingFence t = t := by
      unfold cleanLeadingFence
      rw [if_neg (by simp [hpy]), if_neg (by simp [hpre])]
    rw [clean_code_block_eq, hlead, if_neg (by simp [hsuf])]

/-- C8 counterexample: for a fence tagged "js" the cleanup removes only the
three backticks and leaves the language tag inside the returned text, so
the leading fence is not removed "including its language tag". -/
theorem fence_stripping_counterexample :
    clean_code_block "```js\nx = 1\n```".data = "js\nx = 1".data ∧
    "js\nx = 1".data ≠ "x = 1".data := by
  constructor
  · decide
  · decide

/-- Concrete instantiation of `fence_stripping`: a python-fenced body
"x = 1" is unwrapped, and fence-free text is unchanged. -/
theorem fence_stripping_witness :
    ("x = 1".data ≠ ([] : List Char)) ∧
    clean_code_block "```python\nx = 1\n```".data = "x = 1".data ∧
    clean_code_block "no fences here".data = "no fences here".data := by
  refine ⟨by decide, ?_, ?_⟩
  · have h := (fence_stripping "x = 1".data "no fences here".data (by decide)
      (by decide) (by decide) (by decide) (by decide)).1
    have e : "```python\n".data ++ "x = 1".data ++ "\n```".data
        = "```python\nx = 1\n```".data := by decide
    rw [← e]
    exact h
  · exact (fence_stripping "x = 1".data "no fences here".data (by decide)
      (by decide) (by decide) (by decide) (by decide)).2.2
